import Mathlib

set_option maxRecDepth 8000

/-!
Verification of the tweaking-pintos kernel allocator (threads/malloc.c) and
signal subsystem (threads/signal.c, signal.h).

The allocator is embedded as a state-passing model: free lists and the arena
registry are explicit lists of addresses, arena headers and block `size`
fields live in association lists keyed by address (mirroring the in-memory
metadata the C code reads and writes), and the page allocator is a counter
handing out consecutive page-aligned regions plus a log of the
`palloc_free_multiple` calls.  Reads of memory that hold no modelled
metadata (e.g. `((struct arena *) p - 1)->num_pages` when `p - sizeof(struct
arena)` is not an arena base) are indeterminate in C; the model returns
`none` ("stuck") there, as it does for failed `ASSERT`s.  All loops of the
C code are embedded with an explicit structural fuel equal to the bound the
code itself relies on (the descriptor count), so every definition computes
by kernel reduction.
-/

namespace Pintos

/-- Page size, as in threads/vaddr.h (`PGSIZE`). -/
def PGSIZE : Nat := 4096

/-- Size in bytes of `struct arena`; the spec's scenario constants fix the
header at 32 bytes, and the C arithmetic uses `sizeof (struct arena)`
uniformly, so all results are insensitive to the exact value. -/
def arenaSz : Nat := 32

/-- Magic number for detecting arena corruption (`ARENA_MAGIC`). -/
def ARENA_MAGIC : Nat := 0x9a548eed

/-- Round a pointer down to its page boundary (`pg_round_down`). -/
def pgDown (p : Nat) : Nat := p - p % PGSIZE

/-- Offset of a pointer within its page (`pg_ofs`). -/
def pgOfs (p : Nat) : Nat := p % PGSIZE

/-- The C expression `pg_ofs(b) - sizeof *a` is `size_t` subtraction, which
wraps modulo 2^32; for offsets at or past the header it is plain
subtraction. -/
def ofsSub (o : Nat) : Nat := (o + (4294967296 - 32)) % 4294967296

/-- Association-list lookup keyed by address. -/
def lookupA : List (Nat × α) → Nat → Option α
  | [], _ => none
  | (k, v) :: rest, key => if k = key then some v else lookupA rest key

/-- Association-list store keyed by address (update or add). -/
def insertA : List (Nat × α) → Nat → α → List (Nat × α)
  | [], key, nv => [(key, nv)]
  | (k, v) :: rest, key, nv =>
    if k = key then (k, nv) :: rest else (k, v) :: insertA rest key nv

/-- Association-list removal keyed by address. -/
def eraseA : List (Nat × α) → Nat → List (Nat × α)
  | [], _ => []
  | (k, v) :: rest, key => if k = key then rest else (k, v) :: eraseA rest key

/-- Size-class descriptor (`struct desc`).  The `lock` field only provides
mutual exclusion and has no sequential content; it is omitted.  The static
array `descs[10]` is zero-initialized, so `blocks_per_arena` starts at 0. -/
structure Desc where
  block_size : Nat
  blocks_per_arena : Nat
  free_list : List Nat
deriving DecidableEq

/-- Arena header (`struct arena`).  The `desc` and `free_cnt` fields and the
`is_used` field of `struct block` are never read or written by any code
path of this malloc.c, so they are omitted; `elem_arena` membership is the
`arena_list` field of the allocator state. -/
structure Arena where
  magic : Nat
  num_pages : Nat
deriving DecidableEq

/-- Allocator state: the descriptor table (`descs`/`desc_cnt`), the global
`arena_list`, the arena headers and block `size` fields stored in memory,
the page-allocator model, and the byte contents of memory (`data`, used for
`memset`/`memcpy`). -/
structure AState where
  descs : List Desc
  arena_list : List Nat
  hdrs : List (Nat × Arena)
  blkSize : List (Nat × Nat)
  pallocNext : Nat
  pallocAvail : Nat
  pallocFrees : List (Nat × Nat)
  data : Nat → Nat

/-- Write a block's stored `size` field. -/
def setBlkSize (s : AState) (addr n : Nat) : AState :=
  { s with blkSize := insertA s.blkSize addr n }

/-- Apply a function to the descriptor at index `i`. -/
def modifyDesc (ds : List Desc) (i : Nat) (f : Desc → Desc) : List Desc :=
  match ds.get? i with
  | some d => ds.set i (f d)
  | none => ds

/-- Append a block to the back of descriptor `i`'s free list
(`list_push_back`). -/
def pushFree (s : AState) (i : Nat) (addr : Nat) : AState :=
  { s with descs := modifyDesc s.descs i (fun d => { d with free_list := d.free_list ++ [addr] }) }

/-- Drop the front of descriptor `i`'s free list (`list_pop_front`). -/
def popFree (s : AState) (i : Nat) : AState :=
  { s with descs := modifyDesc s.descs i (fun d => { d with free_list := d.free_list.tail }) }

/-- Page allocator model for `palloc_get_multiple (0, n)`: hands out `n`
consecutive fresh pages if available. -/
def pallocGet (s : AState) (n : Nat) : Option (Nat × AState) :=
  if n ≤ s.pallocAvail then
    some (PGSIZE * s.pallocNext,
      { s with pallocNext := s.pallocNext + n, pallocAvail := s.pallocAvail - n })
  else none

/-- Page allocator model for `palloc_free_multiple (base, n)`: records the
call and invalidates the header bytes at `base`. -/
def pallocFreeM (s : AState) (base n : Nat) : AState :=
  { s with pallocFrees := (base, n) :: s.pallocFrees, hdrs := eraseA s.hdrs base }

/-- The `malloc_init` loop `for (bs = 16; bs < PGSIZE / 2; bs *= 2)`; the
fuel 10 mirrors the `descs[10]` array bound asserted in the loop. -/
def descLoopAux : Nat → Nat → List Nat
  | 0, _ => []
  | fuel + 1, bs => if bs < PGSIZE / 2 then bs :: descLoopAux fuel (bs * 2) else []

/-- Descriptor table produced by `malloc_init`: one descriptor per generated
block size; `blocks_per_arena` is not assigned by the code and keeps its
static zero initialization. -/
def malloc_init_descs : List Desc :=
  (descLoopAux 10 16).map fun bs =>
    { block_size := bs, blocks_per_arena := 0, free_list := [] }

/-- Allocator state after `malloc_init`, with 100 free pages available and
page numbering starting at 1 (so no valid address is 0/NULL). -/
def initState : AState :=
  { descs := malloc_init_descs
    arena_list := []
    hdrs := []
    blkSize := []
    pallocNext := 1
    pallocAvail := 100
    pallocFrees := []
    data := fun _ => 0 }

/-- Address of the `idx`-th block of the arena at `a` for class size `bs`
(`arena_to_block`: `(uint8_t *) a + sizeof *a + idx * d->block_size`). -/
def arena_to_block (a idx bs : Nat) : Nat := a + arenaSz + idx * bs

/-- The arena owning block `b` (`block_to_arena`): round down to the page
boundary, then `ASSERT` the magic value and the block alignment.  `none`
models a failed assertion. -/
def block_to_arena (s : AState) (b size : Nat) : Option Nat :=
  let a := pgDown b
  match lookupA s.hdrs a with
  | none => none
  | some h =>
    if h.magic ≠ ARENA_MAGIC then none
    else if (ofsSub (pgOfs b)) % size ≠ 0 then none
    else some a

/-- The descriptor scan of malloc (lines 115-124): index of the first
descriptor with `block_size >= size` (`desc_obj`), or `none` when the
request exceeds every class. -/
def fdAux : List Desc → Nat → Nat → Option Nat
  | [], _, _ => none
  | d :: rest, size, i =>
    if size ≤ d.block_size then some i else fdAux rest size (i + 1)

/-- The inner `while` of the scan: first index `j' ≥ j` whose free list is
nonempty, else `desc_cnt` (the loop stops at the zero-initialized
descriptor past the table). -/
def fne : Nat → List Desc → Nat → Nat
  | 0, _, j => j
  | fuel + 1, ds, j =>
    match ds.get? j with
    | none => j
    | some d => if d.free_list = [] then fne fuel ds (j + 1) else j

/-- Oversized-request path of malloc (lines 128-142): allocate enough pages
for the request plus the arena header, stamp the header as big, and return
the address just past it. -/
def malloc_oversized (s : AState) (size : Nat) : Option (Option Nat × AState) :=
  let page_cnt := (size + arenaSz + (PGSIZE - 1)) / PGSIZE
  match pallocGet s page_cnt with
  | none => some (none, s)
  | some (base, s1) =>
    some (some (base + arenaSz),
      { s1 with hdrs := insertA s1.hdrs base ⟨ARENA_MAGIC, page_cnt⟩ })

/-- The splitting loop of the fresh-arena path (lines 160-172): while the
class at `desc_cnt - j` is larger than the target class, push that class's
second half-block onto its free list and descend. -/
def splitFresh : Nat → AState → Nat → Nat → Nat → Option (AState × Nat)
  | 0, _, _, _, _ => none
  | fuel + 1, s, base, target, j =>
    let cnt := s.descs.length
    match s.descs.get? (cnt - j) with
    | none => none
    | some d =>
      if target < d.block_size then
        let addr := arena_to_block base 1 d.block_size
        let s1 := pushFree (setBlkSize s addr d.block_size) (cnt - j) addr
        let j1 := j + 1
        match s1.descs.get? (cnt - j1) with
        | none => none
        | some d1 =>
          if d1.block_size ≤ target then some (s1, j1)
          else splitFresh fuel s1 base target j1
      else some (s, j)

/-- Stamp a fresh page as a small arena: `magic = ARENA_MAGIC`,
`num_pages = 0` (lines 157-158). -/
def stampSmall (s : AState) (base : Nat) : AState :=
  { s with hdrs := insertA s.hdrs base ⟨ARENA_MAGIC, 0⟩ }

/-- Fresh-arena path of malloc (lines 144-185): get one page, stamp a small
arena header, split down to the target class, push the final buddy onto the
target descriptor's list, register the arena, and return block 0. -/
def malloc_fresh (s : AState) (di : Nat) : Option (Option Nat × AState) :=
  match s.descs.get? di with
  | none => none
  | some dT =>
    match pallocGet s 1 with
    | none => some (none, s)
    | some (base, s1) =>
      match splitFresh (stampSmall s1 base).descs.length (stampSmall s1 base) base dT.block_size 1 with
      | none => none
      | some (s3, jF) =>
        match s3.descs.get? (s3.descs.length - jF) with
        | none => none
        | some dj =>
          let buddy := arena_to_block base 1 dj.block_size
          let s4 := pushFree (setBlkSize s3 buddy dj.block_size) di buddy
          let ret := arena_to_block base 0 dj.block_size
          let s5 := setBlkSize s4 ret dj.block_size
          some (some ret, { s5 with arena_list := s5.arena_list ++ [base] })

/-- The `while (!( descs[cnt-idx].block_size <= descs[bc].block_size )) idx++`
search (lines 196-197). -/
def fidAux : Nat → List Desc → Nat → Nat → Nat
  | 0, _, _, idx => idx
  | fuel + 1, ds, bcBS, idx =>
    match ds.get? (ds.length - idx) with
    | none => idx
    | some d => if d.block_size ≤ bcBS then idx else fidAux fuel ds bcBS (idx + 1)

/-- The final `list_pop_front` of malloc (line 240): pop and return the head
of descriptor `bc`'s free list. -/
def finalPop (s : AState) (bc : Nat) : Option (Option Nat × AState) :=
  match s.descs.get? bc with
  | none => none
  | some d =>
    match d.free_list.head? with
    | none => none
    | some blk => some (some blk, popFree s bc)

/-- Split loop of the fast path (lines 207-237): pop a block of the class at
`bc`, compute its index and the two child-buddy addresses from the arena
base, push both halves onto the child class's list, and descend until the
target class is reached; then pop and return. -/
def splitLoop : Nat → AState → Nat → Nat → Nat → Nat → Option (Option Nat × AState)
  | 0, _, _, _, _, _ => none
  | fuel + 1, s, base, target, bc, idx =>
    let cnt := s.descs.length
    match s.descs.get? (cnt - idx) with
    | none => none
    | some dIdx =>
      if target < dIdx.block_size then
        match s.descs.get? bc with
        | none => none
        | some dbc =>
          match dbc.free_list.head? with
          | none => none
          | some blk =>
            let s1 := popFree s bc
            let blockIndex := (ofsSub (pgOfs blk)) / dIdx.block_size
            let b1i := 2 * blockIndex
            let b2i := b1i + 1
            let idx1 := idx + 1
            match s1.descs.get? (cnt - idx1) with
            | none => none
            | some dC =>
              let buddy2 := arena_to_block base b2i dC.block_size
              let buddy1 := arena_to_block base b1i dC.block_size
              let s2 := setBlkSize (setBlkSize s1 buddy2 dC.block_size) buddy1 dC.block_size
              let bc1 := bc - 1
              let s3 := pushFree (pushFree s2 bc1 buddy1) bc1 buddy2
              if dC.block_size ≤ target then finalPop s3 bc1
              else splitLoop fuel s3 base target bc1 idx1
      else finalPop s bc

/-- Fast/split path of malloc (lines 187-241): read (without popping) the
head of the first nonempty class, find its arena, and either pop-and-return
it when the class already matches, or run the split loop down to the target
class. -/
def malloc_fastsplit (s : AState) (di bc : Nat) : Option (Option Nat × AState) :=
  match s.descs.get? bc with
  | none => none
  | some dbc =>
    match dbc.free_list.head? with
    | none => none
    | some headB =>
      match lookupA s.blkSize headB with
      | none => none
      | some sz =>
        match block_to_arena s headB sz with
        | none => none
        | some base =>
          let idx := fidAux s.descs.length s.descs dbc.block_size 1
          if bc = di then some (some headB, popFree s bc)
          else
            match s.descs.get? di with
            | none => none
            | some dT => splitLoop s.descs.length s base dT.block_size bc idx

/-- malloc (lines 96-242): a request for 0 bytes yields a null pointer; a
request larger than every class takes the oversized path; when every class
at or above the target has an empty free list a fresh arena is carved;
otherwise the fast/split path serves the request.  The outer `none` marks
an assertion failure or an indeterminate memory read. -/
def malloc (s : AState) (size : Nat) : Option (Option Nat × AState) :=
  if size = 0 then some (none, s)
  else
    match fdAux s.descs size 0 with
    | none => malloc_oversized s size
    | some di =>
      if fne s.descs.length s.descs di = s.descs.length then malloc_fresh s di
      else malloc_fastsplit s di (fne s.descs.length s.descs di)

/-- Coalescing loop of free (lines 321-365): at class `i`, compute the
block's arena index from its stored size, locate the buddy address, and if
that buddy is on class `i`'s free list, remove it, double the stored size
of the lower of the two (moving to the buddy when the freed block is the
odd one), and continue; otherwise push the block onto class `i`'s list and
stop. -/
def coalesce : Nat → AState → Nat → Nat → Nat → Option (AState × Nat)
  | 0, _, _, _, _ => none
  | fuel + 1, s, base, blk, i =>
    if i < s.descs.length then
      match lookupA s.blkSize blk with
      | none => none
      | some sz =>
        let arenaIndex := (ofsSub (pgOfs blk)) / sz
        let buddyIndex := if arenaIndex % 2 = 1 then arenaIndex - 1 else arenaIndex + 1
        match s.descs.get? i with
        | none => none
        | some di_ =>
          let buddy := arena_to_block base buddyIndex di_.block_size
          if buddy ∈ di_.free_list then
            let s1 := { s with descs := modifyDesc s.descs i (fun d => { d with free_list := d.free_list.erase buddy }) }
            if arenaIndex % 2 = 1 then
              match lookupA s1.blkSize buddy with
              | none => none
              | some bsz => coalesce fuel (setBlkSize s1 buddy (2 * bsz)) base buddy (i + 1)
            else coalesce fuel (setBlkSize s1 blk (2 * sz)) base blk (i + 1)
          else some (pushFree s i blk, i)
    else some (s, i)

/-- free (lines 296-373).  The code first forms `(struct arena *) p - 1` and
reads its `num_pages` field: the big/small dispatch happens on that header
candidate, before any magic validation.  If `num_pages > 0` all the pages
are returned in one `palloc_free_multiple` call; otherwise `block_to_arena`
(which rounds down to the page and asserts the magic) is consulted and the
coalescing loop runs; if it reaches `desc_cnt` the arena is removed from
the registry and its page freed.  `none` marks a failed assertion or a read
of memory that holds no header. -/
def free (s : AState) (p : Nat) : Option AState :=
  if p = 0 then some s
  else
    match lookupA s.hdrs (p - arenaSz) with
    | none => none
    | some cand =>
      if 0 < cand.num_pages then some (pallocFreeM s (p - arenaSz) cand.num_pages)
      else
        match lookupA s.blkSize p with
        | none => none
        | some sz =>
          match block_to_arena s p sz with
          | none => none
          | some base =>
            match fdAux s.descs sz 0 with
            | none => none
            | some i0 =>
              match coalesce (s.descs.length + 1) s base p i0 with
              | none => none
              | some (s1, i1) =>
                if i1 = s1.descs.length then
                  some (pallocFreeM { s1 with arena_list := s1.arena_list.erase base } base 1)
                else some s1

/-- memset of `n` bytes at `p` to zero. -/
def memsetD (d : Nat → Nat) (p n : Nat) : Nat → Nat :=
  fun x => if p ≤ x ∧ x < p + n then 0 else d x

/-- memcpy of `n` bytes from `src` to `dst` (regions from malloc never
overlap). -/
def memcpyD (d : Nat → Nat) (dst src n : Nat) : Nat → Nat :=
  fun x => if dst ≤ x ∧ x < dst + n then d (src + (x - dst)) else d x

/-- calloc (lines 246-263): compute `a * b` in `size_t` (wrapping modulo
2^32), return null if the wrapped product is below either factor, else
allocate and zero it. -/
def calloc (s : AState) (a b : Nat) : Option (Option Nat × AState) :=
  let size := (a * b) % 4294967296
  if size < a ∨ size < b then some (none, s)
  else
    match malloc s size with
    | none => none
    | some (none, s1) => some (none, s1)
    | some (some p, s1) => some (some p, { s1 with data := memsetD s1.data p size })

/-- realloc (lines 271-292): size 0 frees and returns null; otherwise
allocate the new size, and only when both the old and the new pointer are
non-null copy `min(new_size, old_size)` bytes and free the old block. -/
def realloc (s : AState) (p n : Nat) : Option (Option Nat × AState) :=
  if n = 0 then (free s p).map (fun s1 => (none, s1))
  else
    match malloc s n with
    | none => none
    | some (none, s1) => some (none, s1)
    | some (some np, s1) =>
      if p ≠ 0 then
        match lookupA s1.blkSize p with
        | none => none
        | some osz =>
          let s2 := { s1 with data := memcpyD s1.data np p (min n osz) }
          match free s2 p with
          | none => none
          | some s3 => some (some np, s3)
      else some (some np, s1)

/-! ## Signal subsystem (threads/signal.c, signal.h) -/

/-- Signal numbers (`enum sig_value`). -/
def SIG_CHLD : Int := 0
def SIG_CPU : Int := 1
def SIG_UBLOCK : Int := 2
def SIG_USR : Int := 3
def SIG_KILL : Int := 4

/-- Mask-change modes (`enum how`). -/
def SIG_BLOCK : Int := 0
def SIG_UNBLOCK : Int := 1
def SIG_SETMASK : Int := 2

/-- Handler dispositions (`enum sig_handler`). -/
def SIG_IGN : Int := 0
def SIG_DFL : Int := 1

/-- A pending-signal record (`struct signal`): signal number and sender
tid. -/
structure Sig where
  signum : Int
  sender : Nat
deriving DecidableEq

/-- Modelled from the spec: thread states of the scheduler (thread.h is not
in the sources); `kill` only distinguishes `THREAD_BLOCKED` from the
rest. -/
inductive TStatus where
  | running
  | ready
  | blocked
  | dying
deriving DecidableEq

/-- Per-thread signal state embedded in the TCB: mask bitset, scheduler
status, parent link (a tid; the spec fixes the root's parent tid at 1), and
the pending-signal list. -/
structure TState where
  sigmask : Nat
  status : TStatus
  parentTid : Nat
  pending : List Sig
deriving DecidableEq

/-- Signal-system state: the thread table keyed by tid and the global
`unblock_list` of tids whose unblock was requested. -/
structure Sys where
  threads : List (Nat × TState)
  unblockList : List Nat
deriving DecidableEq

/-- signal_ (lines 24-55): sets or clears the caller's mask bit for the
four configurable signals; KILL is untouched; the return value is always
0.  Returns the new mask and the return code. -/
def signal_ (mask : Nat) (signum handler : Int) : Nat × Int :=
  (if signum = 0 ∧ handler = SIG_IGN then mask ||| 1
   else if signum = 0 ∧ handler = SIG_DFL then mask &&& 14
   else if signum = 1 ∧ handler = SIG_IGN then mask ||| 2
   else if signum = 1 ∧ handler = SIG_DFL then mask &&& 13
   else if signum = 2 ∧ handler = SIG_IGN then mask ||| 4
   else if signum = 2 ∧ handler = SIG_DFL then mask &&& 11
   else if signum = 3 ∧ handler = SIG_IGN then mask ||| 8
   else if signum = 3 ∧ handler = SIG_DFL then mask &&& 7
   else mask, 0)

/-- sigaddset (lines 191-198): reject signum outside `[0, 4]`, else or-in
the table entry `{1, 2, 4, 8, 16}[signum]`. -/
def sigaddset (set : Nat) (signum : Int) : Nat × Int :=
  if signum < 0 ∨ 4 < signum then (set, -1)
  else (set ||| ([1, 2, 4, 8, 16].getD signum.toNat 0), 0)

/-- sigdelset (lines 179-186): reject signum outside `[0, 4]`, else and-in
the table entry `{30, 29, 27, 23, 15}[signum]`. -/
def sigdelset (set : Nat) (signum : Int) : Nat × Int :=
  if signum < 0 ∨ 4 < signum then (set, -1)
  else (set &&& ([30, 29, 27, 23, 15].getD signum.toNat 0), 0)

/-- sigprocmask (lines 203-217): record the current mask when `oldset` is
non-null, then or-in (`SIG_BLOCK`), and-not (`SIG_UNBLOCK`, the complement
taken within the 16-bit `sigset_t`) or assign (`SIG_SETMASK`).  Returns the
new mask, the value stored through `oldset`, and the return code 0. -/
def sigprocmask (mask : Nat) (how : Int) (set : Nat) (oldNonNull : Bool) :
    Nat × Option Nat × Int :=
  let old := if oldNonNull then some mask else none
  let m1 := if how = SIG_BLOCK then mask ||| set
            else if how = SIG_UNBLOCK then mask &&& (65535 ^^^ set)
            else if how = SIG_SETMASK then set
            else mask
  (m1, old, 0)

/-- The pending-list scan shared by the USR and KILL paths of kill (lines
85-95 and 130-140): overwrite the sender of the first record carrying
`signum`, reporting whether one was found. -/
def coalesceSig : List Sig → Int → Nat → List Sig × Bool
  | [], _, _ => ([], false)
  | s :: rest, sn, sender =>
    if s.signum = sn then (⟨sn, sender⟩ :: rest, true)
    else
      let r := coalesceSig rest sn sender
      (s :: r.1, r.2)

/-- The parent-chain walk of the KILL path (lines 113-125): starting at the
target, succeed when the caller's tid equals the current thread's parent
tid, stop (failing) when the parent tid is the root tid 1, else climb.  The
fuel bounds the walk by the thread count; `none` models a chain the C loop
would never exit or a dangling parent pointer. -/
def walkChain (threads : List (Nat × TState)) (caller : Nat) : Nat → Nat → Option Bool
  | _, 0 => none
  | tmp, fuel + 1 =>
    match lookupA threads tmp with
    | none => none
    | some t =>
      if caller = t.parentTid then some true
      else if t.parentTid = 1 then some false
      else walkChain threads caller t.parentTid fuel

/-- Modelled from the spec: `validated_tid` (thread.c, not among the
sources) returns the thread for a known tid and NULL for an unknown tid;
`kill` returns −1 on NULL. -/
def validated_tid (sys : Sys) (tid : Nat) : Option TState :=
  lookupA sys.threads tid

/-- kill (lines 60-154), invoked by the thread `caller`.  UBLOCK: fail if
the target masks it, succeed as a no-op unless the target is blocked, else
append the target to the global unblock list.  USR: fail if masked, else
coalesce onto an existing USR record or enqueue a new one.  KILL: walk the
target's parent chain for permission, then coalesce or enqueue.  Any other
signum fails.  Returns the C return code and the new state; `none` marks a
walk the C code would not complete. -/
def kill (sys : Sys) (caller tid : Nat) (signum : Int) : Option (Int × Sys) :=
  match validated_tid sys tid with
  | none => some (-1, sys)
  | some t =>
    if signum = SIG_UBLOCK then
      if t.sigmask &&& 4 ≠ 0 then some (-1, sys)
      else if t.status ≠ TStatus.blocked then some (0, sys)
      else some (0, { sys with unblockList := sys.unblockList ++ [tid] })
    else if signum = SIG_USR then
      if t.sigmask &&& 8 ≠ 0 then some (-1, sys)
      else
        some (0, { sys with threads := insertA sys.threads tid ({ t with pending :=
              if (coalesceSig t.pending SIG_USR caller).2 then (coalesceSig t.pending SIG_USR caller).1
              else (coalesceSig t.pending SIG_USR caller).1 ++ [⟨SIG_USR, caller⟩] }) })
    else if signum = SIG_KILL then
      match walkChain sys.threads caller tid (sys.threads.length + 1) with
      | none => none
      | some false => some (-1, sys)
      | some true =>
        some (0, { sys with threads := insertA sys.threads tid ({ t with pending :=
              if (coalesceSig t.pending SIG_KILL caller).2 then (coalesceSig t.pending SIG_KILL caller).1
              else (coalesceSig t.pending SIG_KILL caller).1 ++ [⟨SIG_KILL, caller⟩] }) })
    else some (-1, sys)

/-- Run a sequence of kill calls, each given as (caller, target tid,
signum). -/
def runKills : Sys → List (Nat × Nat × Int) → Option Sys
  | sys, [] => some sys
  | sys, (c, tid, sn) :: rest =>
    match kill sys c tid sn with
    | none => none
    | some (_, sys1) => runKills sys1 rest

/-- Number of pending records carrying `signum`. -/
def sigCount (l : List Sig) (sn : Int) : Nat :=
  l.countP (fun x => x.signum = sn)

/-- At most one pending KILL and at most one pending USR record per
thread. -/
def PendInv (sys : Sys) : Prop :=
  ∀ pr ∈ sys.threads, sigCount pr.2.pending SIG_KILL ≤ 1 ∧ sigCount pr.2.pending SIG_USR ≤ 1

/-! ## Concrete states used by the scenario theorems and witnesses -/

/-- Free lists of all descriptors, by class index. -/
def freeLists (s : AState) : List (List Nat) := s.descs.map (·.free_list)

/-- A heap whose only arena header, at page 4096, is a big arena of 3 pages
with a corrupted magic field. -/
def sBadMagic : AState := { initState with hdrs := [(4096, ⟨0, 3⟩)] }

/-- A heap with a corrupted-magic small arena at page 4096 and a 64-byte
block stored at 4128. -/
def sSmallBad : AState :=
  { initState with hdrs := [(4096, ⟨0, 0⟩)], blkSize := [(4128, 64)] }

/-- A fresh heap whose page allocator has no pages left. -/
def sNoPages : AState := { initState with pallocAvail := 0 }

/-- State produced by `calloc initState 10 10`. -/
def c2resState : AState := ((calloc initState 10 10).getD (none, initState)).2

/-- The root thread: tid 1, parent tid 1 (the spec fixes the root's parent
tid at 1), nothing pending. -/
def tRoot : TState := ⟨0, .running, 1, []⟩

/-- An ordinary thread whose parent is the root. -/
def tChild : TState := ⟨0, .running, 1, []⟩

/-- Two-thread system: the root (tid 1) and an ordinary child (tid 2). -/
def sysC3 : Sys := ⟨[(1, tRoot), (2, tChild)], []⟩

/-- `sysC3` after the root enqueues a KILL on itself. -/
def sysRootKilled : Sys := ⟨[(1, ⟨0, .running, 1, [⟨4, 1⟩]⟩), (2, tChild)], []⟩

/-- Kill sequence for the witness of the pending-coalescing invariant:
two root self-KILLs and two USR sends to thread 2. -/
def ksW : List (Nat × Nat × Int) := [(1, 1, 4), (1, 1, 4), (1, 2, 3), (1, 2, 3)]

/-- Result of running `ksW` on `sysC3`. -/
def sysC6res : Sys := ⟨[(1, ⟨0, .running, 1, [⟨4, 1⟩]⟩), (2, ⟨0, .running, 1, [⟨3, 1⟩]⟩)], []⟩

/-! ## Theorems -/

/-- Claim C4: on an empty heap, `alloc(40)` selects class 64 (the returned
block's stored size is 64 at address 4128), obtains exactly one page (the
page counter advances from 1 to 2), splits it so that classes 1024, 512,
256 and 128 each hold exactly one free block of the arena at page 4096
(5152, 4640, 4384, 4256; the class-64 buddy 4192 is also left free), and
registers the arena; freeing the pointer coalesces through every class,
leaves all free lists empty, removes the arena from the registry, and
returns the page to the page allocator in one call. -/
theorem C4_scenario :
    (malloc initState 40).map
        (fun r => (r.1, freeLists r.2, r.2.arena_list, lookupA r.2.blkSize 4128, r.2.pallocNext))
      = some (some 4128, [[], [], [4192], [4256], [4384], [4640], [5152]], [4096], some 64, 2)
    ∧ ((malloc initState 40).bind (fun r => free r.2 4128)).map
        (fun s2 => (freeLists s2, s2.arena_list, s2.pallocFrees))
      = some ([[], [], [], [], [], [], []], [], [(4096, 1)]) := by
  constructor <;> decide

/-- Claim C3, counterexample: in a two-thread system where thread 2's parent
is the root, `kill(2, KILL)` called by thread 2 itself returns −1 and
enqueues nothing, because the permission loop compares the caller's tid
against the target's parent tid (1), never against the target itself, and
then stops at the root. -/
theorem C3_counterexample :
    kill sysC3 2 2 SIG_KILL = some (-1, sysC3)
    ∧ (lookupA sysC3.threads 2).map (·.pending) = some [] := by
  decide

/-- Claim C3, amended: a self-`kill(tid, KILL)` passes the permission walk
only when the caller's tid occurs as a parent tid along the chain, which
holds for the root thread (its parent tid equals its own tid 1) but not for
an ordinary thread; a root self-kill succeeds and enqueues one KILL record,
and a second identical call coalesces onto the same record, leaving exactly
one pending KILL. -/
theorem C3_amended :
    kill sysC3 1 1 SIG_KILL = some (0, sysRootKilled)
    ∧ kill sysRootKilled 1 1 SIG_KILL = some (0, sysRootKilled)
    ∧ (lookupA sysRootKilled.threads 1).map (fun t => sigCount t.pending SIG_KILL) = some 1 := by
  refine ⟨by decide, by decide, by decide⟩

/-- Claim C8: `sigprocmask(SIG_BLOCK, s, old)` stores the current mask `m`
through `old` when it is non-null, sets the mask to the bitwise union
`m ||| s`, and returns 0; reading the mask afterwards therefore yields the
stored old mask or-ed with `s`. -/
theorem C8_sigprocmask_block (m s : Nat) :
    sigprocmask m SIG_BLOCK s true = (m ||| s, some m, 0) := by
  simp [sigprocmask]

/-- Claim C10: `kill(tid, SIG_UBLOCK)` never modifies any thread's pending
list or signal mask — the entire thread table is unchanged in all three
outcomes (target masking UBLOCK, target not blocked, target blocked and
appended to the global unblock list). -/
theorem C10_ublock_frame (sys : Sys) (caller tid : Nat) :
    (kill sys caller tid SIG_UBLOCK).map (fun r => r.2.threads) = some sys.threads := by
  rcases h : lookupA sys.threads tid with _ | t <;>
    simp [kill, validated_tid, h, SIG_UBLOCK, SIG_USR, SIG_KILL] <;>
    split_ifs <;> exact ⟨_, _, rfl, rfl⟩

/-- Claim C1, counterexample: freeing a big-arena pointer whose header magic
is corrupted (0 instead of `ARENA_MAGIC`) still returns all the pages — the
big/small dispatch reads `((struct arena *) p - 1)->num_pages` with no
magic validation, so the claimed round-down-and-validate step does not
happen before the dispatch. -/
theorem C1_counterexample :
    (lookupA sBadMagic.hdrs (pgDown 4128)).map (·.magic) = some 0
    ∧ (0 : Nat) ≠ ARENA_MAGIC
    ∧ (free sBadMagic 4128).map (·.pallocFrees) = some [(4096, 3)] := by
  refine ⟨by decide, by decide, by decide⟩

/-- Claim C1, amended: for non-null `p`, `free` derives a candidate header
at `p - sizeof(struct arena)` (which coincides with the page round-down
only for big arenas and for the first small block) and dispatches on its
`num_pages` with no magic validation; when `num_pages > 0` all the pages
are returned to the page allocator in one call; the magic sentinel is
validated only afterwards, on the small path, where a corrupted magic halts
(assertion failure). -/
theorem C1_amended :
    (∀ (s : AState) (p : Nat) (h : Arena), p ≠ 0 →
        lookupA s.hdrs (p - arenaSz) = some h → 0 < h.num_pages →
        free s p = some (pallocFreeM s (p - arenaSz) h.num_pages))
    ∧ (∀ (s : AState) (p : Nat) (h h2 : Arena) (sz : Nat), p ≠ 0 →
        lookupA s.hdrs (p - arenaSz) = some h → h.num_pages = 0 →
        lookupA s.blkSize p = some sz →
        lookupA s.hdrs (pgDown p) = some h2 → h2.magic ≠ ARENA_MAGIC →
        free s p = none) := by
  constructor
  · intro s p h hp hl hn
    simp [free, hp, hl, hn]
  · intro s p h h2 sz hp hl hn hsz hl2 hm
    simp [free, hp, hl, hn, hsz, block_to_arena, hl2, hm]

/-- Witness for the amended C1: the corrupted big arena is freed without
validation, and a corrupted-magic small arena halts on the small path. -/
theorem C1_amended_witness :
    ((4128 : Nat) ≠ 0)
    ∧ lookupA sBadMagic.hdrs (4128 - arenaSz) = some ⟨0, 3⟩
    ∧ (0 : Nat) < 3
    ∧ free sBadMagic 4128 = some (pallocFreeM sBadMagic (4128 - arenaSz) 3)
    ∧ free sSmallBad 4128 = none :=
  ⟨by decide, by decide, by decide,
   C1_amended.1 sBadMagic 4128 ⟨0, 3⟩ (by decide) (by decide) (by decide),
   C1_amended.2 sSmallBad 4128 ⟨0, 0⟩ ⟨0, 0⟩ 64 (by decide) (by decide) (by decide)
     (by decide) (by decide) (by decide)⟩

/-- Claim C2, counterexample: 65537 · 65537 overflows the 32-bit size type,
yet the check `s < a ∨ s < b` does not fire (the wrapped product is
131073), so `calloc` proceeds to allocate and returns a non-null pointer
instead of the claimed null. -/
theorem C2_counterexample :
    4294967296 ≤ 65537 * 65537
    ∧ (65537 : Nat) < 4294967296
    ∧ (calloc initState 65537 65537).map (fun r => r.1) = some (some 4128) := by
  refine ⟨by decide, by decide, by decide⟩

/-- Claim C2, amended: `calloc(a, b)` returns null exactly when the wrapped
product `(a · b) mod 2^32` is smaller than `a` or than `b` — a test that
catches some but not all overflows (65537 · 65537 slips through); when the
product does not overflow and allocation succeeds, every byte of the
returned `a · b`-byte region is zeroed. -/
theorem C2_amended :
    (∀ (s : AState) (a b : Nat),
        (a * b) % 4294967296 < a ∨ (a * b) % 4294967296 < b →
        calloc s a b = some (none, s))
    ∧ (∀ (s : AState) (a b i : Nat) (r : Option Nat × AState) (p : Nat),
        a * b < 4294967296 → i < a * b →
        calloc s a b = some r → r.1 = some p → r.2.data (p + i) = 0) := by
  constructor
  · intro s a b hov
    simp [calloc, hov]
  · intro s a b i r p hnov hi hc hp
    have hmod : (a * b) % 4294967296 = a * b := Nat.mod_eq_of_lt hnov
    rw [calloc] at hc
    rw [hmod] at hc
    by_cases hov : a * b < a ∨ a * b < b
    · simp [hov] at hc
      subst hc
      simp at hp
    · rw [if_neg hov] at hc
      rcases hm : malloc s (a * b) with _ | ⟨_ | q, s1⟩ <;> rw [hm] at hc
      · exact absurd hc (by simp)
      · injection hc with hc
        subst hc
        simp at hp
      · injection hc with hc
        subst hc
        simp only at hp
        injection hp with hp
        subst hp
        simp only [memsetD]
        rw [if_pos ⟨Nat.le_add_right _ _, by omega⟩]

/-- Witness for the amended C2: `calloc(size_max, 2)` is caught by the check
and returns null, and byte 5 of the 100-byte region returned by
`calloc(10, 10)` is zero. -/
theorem C2_amended_witness :
    ((4294967295 * 2) % 4294967296 < 4294967295 ∨ (4294967295 * 2) % 4294967296 < 2)
    ∧ calloc initState 4294967295 2 = some (none, initState)
    ∧ (10 * 10 : Nat) < 4294967296
    ∧ (5 : Nat) < 10 * 10
    ∧ calloc initState 10 10 = some (some 4128, c2resState)
    ∧ c2resState.data (4128 + 5) = 0 :=
  ⟨by decide,
   C2_amended.1 initState 4294967295 2 (by decide),
   by decide, by decide, rfl,
   C2_amended.2 initState 10 10 5 (some 4128, c2resState) 4128 (by decide) (by decide)
     rfl rfl⟩

/-- Claim C5, counterexample: `malloc_init` populates the block sizes
16 … 1024 but never assigns `blocks_per_arena`, which keeps its static zero
initialization — it does not equal `(page_size − sizeof(arena)) /
block_size` for any descriptor. -/
theorem C5_counterexample :
    malloc_init_descs.map (·.block_size) = [16, 32, 64, 128, 256, 512, 1024]
    ∧ ¬ (∀ d ∈ malloc_init_descs,
          d.blocks_per_arena = (PGSIZE - arenaSz) / d.block_size) := by
  refine ⟨by decide, by decide⟩

/-- Claim C7, counterexample: `signal_` performs no validation of its signal
number — called with the invalid signum 5 it still returns 0 (the claim
demands −1). -/
theorem C7_counterexample :
    ((5 : Int) < 0 ∨ (4 : Int) < 5) ∧ (signal_ 0 5 SIG_IGN).2 = 0 := by
  refine ⟨by decide, rfl⟩

/-- Claim C5, amended: after `malloc_init` the descriptor table contains
exactly one descriptor for each power of two from 16 up to `page_size/4`
(every power of two at least 16 and strictly below `page_size/2`), but
`blocks_per_arena` is never assigned — every descriptor keeps the static
zero in that (otherwise unused) field rather than
`(page_size − sizeof(arena)) / block_size`. -/
theorem C5_amended :
    (∀ bs : Nat, (∃ d ∈ malloc_init_descs, d.block_size = bs) ↔
        ∃ k, bs = 2 ^ k ∧ 16 ≤ bs ∧ bs < PGSIZE / 2)
    ∧ (∀ d ∈ malloc_init_descs, d.blocks_per_arena = 0) := by
  constructor
  · intro bs
    constructor
    · rintro ⟨d, hd, rfl⟩
      have hlist : malloc_init_descs =
          [⟨16, 0, []⟩, ⟨32, 0, []⟩, ⟨64, 0, []⟩, ⟨128, 0, []⟩,
           ⟨256, 0, []⟩, ⟨512, 0, []⟩, ⟨1024, 0, []⟩] := by decide
      rw [hlist] at hd
      fin_cases hd
      · exact ⟨4, by decide⟩
      · exact ⟨5, by decide⟩
      · exact ⟨6, by decide⟩
      · exact ⟨7, by decide⟩
      · exact ⟨8, by decide⟩
      · exact ⟨9, by decide⟩
      · exact ⟨10, by decide⟩
    · rintro ⟨k, rfl, h16, hlt⟩
      have hk4 : 4 ≤ k := by
        by_contra hlt4
        push_neg at hlt4
        interval_cases k <;> norm_num at h16
      have hk11 : k < 11 := by
        by_contra hge
        push_neg at hge
        have h1 : (2 : Nat) ^ 11 ≤ 2 ^ k := Nat.pow_le_pow_right (by norm_num) hge
        have h2 : (2 : Nat) ^ k < 2048 := by simpa [PGSIZE] using hlt
        norm_num at h1
        omega
      interval_cases k <;> decide
  · decide

/-- Witness for the amended C5: the class-16 descriptor is in the table and
its `blocks_per_arena` is 0; class 64 is a table entry because it is a
power of two in range. -/
theorem C5_amended_witness :
    ((⟨16, 0, []⟩ : Desc) ∈ malloc_init_descs)
    ∧ (⟨16, 0, []⟩ : Desc).blocks_per_arena = 0
    ∧ ∃ d ∈ malloc_init_descs, d.block_size = 64 :=
  ⟨by decide, C5_amended.2 ⟨16, 0, []⟩ (by decide),
   (C5_amended.1 64).mpr ⟨6, by decide, by decide, by decide⟩⟩

/-- Claim C7, amended: `kill`, `sigaddset` and `sigdelset` return −1 on an
invalid signal number (`sigaddset`/`sigdelset` reject anything outside
0..4; `kill` rejects anything outside {UBLOCK, USR, KILL}), but `signal_`
performs no validation and returns 0 for every signal number, leaving the
mask unchanged on the unrecognized ones. -/
theorem C7_amended :
    (∀ (st : Nat) (sn : Int), sn < 0 ∨ 4 < sn →
        sigaddset st sn = (st, -1) ∧ sigdelset st sn = (st, -1))
    ∧ (∀ (sys : Sys) (c tid : Nat) (sn : Int),
        sn ≠ SIG_UBLOCK → sn ≠ SIG_USR → sn ≠ SIG_KILL →
        kill sys c tid sn = some (-1, sys))
    ∧ (∀ (m : Nat) (sn h : Int), (signal_ m sn h).2 = 0) := by
  refine ⟨fun st sn h => ⟨by simp [sigaddset, h], by simp [sigdelset, h]⟩, ?_, fun m sn h => rfl⟩
  intro sys c tid sn h2 h3 h4
  rcases hl : lookupA sys.threads tid with _ | t <;>
    simp [kill, validated_tid, hl, h2, h3, h4]

/-- Witness for the amended C7: signum 5 is rejected by the set functions,
`kill` with the non-deliverable signum 0 (CHLD) returns −1, and `signal_`
still returns 0 on the invalid signum 5. -/
theorem C7_amended_witness :
    sigaddset 0 5 = (0, -1)
    ∧ sigdelset 0 5 = (0, -1)
    ∧ kill sysC3 1 2 0 = some (-1, sysC3)
    ∧ (signal_ 0 5 SIG_IGN).2 = 0 :=
  ⟨(C7_amended.1 0 5 (by decide)).1, (C7_amended.1 0 5 (by decide)).2,
   C7_amended.2.1 sysC3 1 2 0 (by decide) (by decide) (by decide),
   C7_amended.2.2 0 5 SIG_IGN⟩

/-- The final pop of malloc always returns a non-null pointer when it
returns at all. -/
theorem finalPop_ptr (s : AState) (bc : Nat) (pr : Option Nat) (s1 : AState)
    (h : finalPop s bc = some (pr, s1)) : pr ≠ none := by
  rw [finalPop] at h
  rcases hd : s.descs.get? bc with _ | d <;> simp only [hd] at h
  · exact absurd h (by simp)
  · rcases hh : d.free_list.head? with _ | blk <;> simp only [hh] at h
    · exact absurd h (by simp)
    · simp only [Option.some.injEq, Prod.mk.injEq] at h
      rw [← h.1]
      simp

/-- The split loop of malloc's fast path always returns a non-null pointer
when it returns at all. -/
theorem splitLoop_ptr : ∀ (fuel : Nat) (s : AState) (base target bc idx : Nat)
    (pr : Option Nat) (s1 : AState),
    splitLoop fuel s base target bc idx = some (pr, s1) → pr ≠ none := by
  intro fuel
  induction fuel with
  | zero =>
    intro s base target bc idx pr s1 h
    exact absurd h (by simp [splitLoop])
  | succ n ih =>
    intro s base target bc idx pr s1 h
    simp only [splitLoop] at h
    rcases h1 : s.descs.get? (s.descs.length - idx) with _ | dIdx <;> simp only [h1] at h
    · exact absurd h (by simp)
    · by_cases hc : target < dIdx.block_size
      · rw [if_pos hc] at h
        rcases h2 : s.descs.get? bc with _ | dbc <;> simp only [h2] at h
        · exact absurd h (by simp)
        · rcases h3 : dbc.free_list.head? with _ | blk <;> simp only [h3] at h
          · exact absurd h (by simp)
          · rcases h4 : (popFree s bc).descs.get? (s.descs.length - (idx + 1)) with _ | dC <;>
              simp only [h4] at h
            · exact absurd h (by simp)
            · by_cases h5 : dC.block_size ≤ target
              · rw [if_pos h5] at h
                exact finalPop_ptr _ _ _ _ h
              · rw [if_neg h5] at h
                exact ih _ _ _ _ _ _ _ h
      · rw [if_neg hc] at h
        exact finalPop_ptr _ _ _ _ h

/-- When malloc reports failure (a null pointer), it has not touched the
allocator state: the only null-returning paths are the zero-size request
and a page-allocator failure before any mutation. -/
theorem malloc_null_state (s : AState) (n : Nat) (s1 : AState)
    (h : malloc s n = some (none, s1)) : s1 = s := by
  rw [malloc] at h
  by_cases h0 : n = 0
  · rw [if_pos h0] at h
    simp only [Option.some.injEq, Prod.mk.injEq] at h
    exact h.2.symm
  · rw [if_neg h0] at h
    rcases hf : fdAux s.descs n 0 with _ | di <;> simp only [hf] at h
    · rw [malloc_oversized] at h
      rcases hp : pallocGet s ((n + arenaSz + (PGSIZE - 1)) / PGSIZE) with _ | ⟨base, s2⟩ <;>
        simp only [hp] at h
      · simp only [Option.some.injEq, Prod.mk.injEq] at h
        exact h.2.symm
      · simp only [Option.some.injEq, Prod.mk.injEq] at h
        exact absurd h.1 (by simp)
    · by_cases hbc : fne s.descs.length s.descs di = s.descs.length
      · rw [if_pos hbc] at h
        rw [malloc_fresh] at h
        split at h
        · exact absurd h (by simp)
        · split at h
          · simp only [Option.some.injEq, Prod.mk.injEq] at h
            exact h.2.symm
          · split at h
            · exact absurd h (by simp)
            · split at h
              · exact absurd h (by simp)
              · exact absurd h (by simp)
      · rw [if_neg hbc] at h
        rw [malloc_fastsplit] at h
        rcases h2 : s.descs.get? (fne s.descs.length s.descs di) with _ | dbc <;> simp only [h2] at h
        · exact absurd h (by simp)
        · rcases h3 : dbc.free_list.head? with _ | headB <;> simp only [h3] at h
          · exact absurd h (by simp)
          · rcases h4 : lookupA s.blkSize headB with _ | sz <;> simp only [h4] at h
            · exact absurd h (by simp)
            · rcases h5 : block_to_arena s headB sz with _ | base <;> simp only [h5] at h
              · exact absurd h (by simp)
              · by_cases h6 : fne s.descs.length s.descs di = di
                · rw [if_pos h6] at h
                  simp only [Option.some.injEq, Prod.mk.injEq] at h
                  exact absurd h.1 (by simp)
                · rw [if_neg h6] at h
                  rcases h7 : s.descs.get? di with _ | dT <;> simp only [h7] at h
                  · exact absurd h (by simp)
                  · exact absurd rfl (splitLoop_ptr _ _ _ _ _ _ _ _ h)

/-- Claim C9: for non-null `p` and `n > 0`, when the internal `malloc(n)`
fails, `realloc(p, n)` returns null, the old block is not freed, no bytes
are copied, and the whole allocator state (including the old block's
contents) is exactly the state before the call. -/
theorem C9_realloc_alloc_failure (s : AState) (p n : Nat) (s1 : AState)
    (hp : p ≠ 0) (hn : 0 < n) (hm : malloc s n = some (none, s1)) :
    realloc s p n = some (none, s) ∧ s1 = s := by
  have hs := malloc_null_state s n s1 hm
  subst hs
  refine ⟨?_, rfl⟩
  rw [realloc, if_neg (by omega : ¬ n = 0), hm]

/-- Witness for C9: on a heap with no pages left, `malloc 40` fails and
`realloc 4128 40` returns null leaving the state untouched. -/
theorem C9_witness :
    ((4128 : Nat) ≠ 0) ∧ (0 < 40)
    ∧ malloc sNoPages 40 = some (none, sNoPages)
    ∧ realloc sNoPages 4128 40 = some (none, sNoPages) :=
  ⟨by decide, by decide, rfl,
   (C9_realloc_alloc_failure sNoPages 4128 40 sNoPages (by decide) (by decide) rfl).1⟩

/-- Overwriting the sender of the first matching record leaves every
record's signal number in place. -/
theorem coalesceSig_signums (l : List Sig) (sn : Int) (c : Nat) :
    ((coalesceSig l sn c).1).map (·.signum) = l.map (·.signum) := by
  induction l with
  | nil => rfl
  | cons s rest ih =>
    by_cases h : s.signum = sn <;> simp [coalesceSig, h, ih]

/-- The per-signum record count only depends on the signal numbers. -/
theorem sigCount_map (l : List Sig) (sn : Int) :
    sigCount l sn = (l.map (·.signum)).countP (fun y => y = sn) := by
  rw [sigCount, List.countP_map]
  rfl

/-- The coalescing scan preserves every per-signum record count. -/
theorem coalesceSig_count (l : List Sig) (sn : Int) (c : Nat) (sn' : Int) :
    sigCount (coalesceSig l sn c).1 sn' = sigCount l sn' := by
  rw [sigCount_map, sigCount_map, coalesceSig_signums]

/-- When the scan finds no matching record, the list is unchanged and holds
no record with that signal number. -/
theorem coalesceSig_not_found : ∀ (l : List Sig) (sn : Int) (c : Nat),
    (coalesceSig l sn c).2 = false →
    (coalesceSig l sn c).1 = l ∧ sigCount l sn = 0 := by
  intro l sn c
  induction l with
  | nil => intro _; exact ⟨rfl, rfl⟩
  | cons s rest ih =>
    intro h
    by_cases hs : s.signum = sn
    · exact absurd h (by simp [coalesceSig, hs])
    · have h1 : (coalesceSig rest sn c).2 = false := by
        simpa [coalesceSig, hs] using h
      obtain ⟨h2, h3⟩ := ih h1
      refine ⟨by simp [coalesceSig, hs, h2], ?_⟩
      simp only [sigCount, List.countP_cons] at h3 ⊢
      simp [hs, h3]

/-- Membership after an association-list store. -/
theorem mem_insertA : ∀ (l : List (Nat × α)) (k : Nat) (v : α) (pr : Nat × α),
    pr ∈ insertA l k v → pr = (k, v) ∨ pr ∈ l := by
  intro l k v
  induction l with
  | nil =>
    intro pr h
    simp [insertA] at h
    exact Or.inl h
  | cons kv rest ih =>
    intro pr h
    obtain ⟨k1, v1⟩ := kv
    by_cases hk : k1 = k
    · simp only [insertA, if_pos hk, List.mem_cons] at h
      rcases h with h | h
      · subst hk
        exact Or.inl h
      · exact Or.inr (List.mem_cons_of_mem _ h)
    · simp only [insertA, if_neg hk, List.mem_cons] at h
      rcases h with h | h
      · exact Or.inr (by simp [h])
      · rcases ih pr h with h1 | h1
        · exact Or.inl h1
        · exact Or.inr (List.mem_cons_of_mem _ h1)

/-- A successful association-list lookup is a membership. -/
theorem lookupA_mem : ∀ (l : List (Nat × α)) (k : Nat) (v : α),
    lookupA l k = some v → (k, v) ∈ l := by
  intro l k v
  induction l with
  | nil => intro h; exact absurd h (by simp [lookupA])
  | cons kv rest ih =>
    intro h
    obtain ⟨k1, v1⟩ := kv
    by_cases hk : k1 = k
    · simp only [lookupA, if_pos hk, Option.some.injEq] at h
      subst hk
      subst h
      exact List.mem_cons_self _ _
    · simp only [lookupA, if_neg hk] at h
      exact List.mem_cons_of_mem _ (ih h)

/-- The pending-list update performed by the USR and KILL paths keeps both
per-signum counts at one or below. -/
theorem pendUpdate_counts (l : List Sig) (sn : Int) (c : Nat) (hsn : sn = 3 ∨ sn = 4)
    (hK : sigCount l 4 ≤ 1) (hU : sigCount l 3 ≤ 1) :
    sigCount (if (coalesceSig l sn c).2 then (coalesceSig l sn c).1
              else (coalesceSig l sn c).1 ++ [⟨sn, c⟩]) 4 ≤ 1
    ∧ sigCount (if (coalesceSig l sn c).2 then (coalesceSig l sn c).1
              else (coalesceSig l sn c).1 ++ [⟨sn, c⟩]) 3 ≤ 1 := by
  cases hf : (coalesceSig l sn c).2
  · obtain ⟨he, h0⟩ := coalesceSig_not_found l sn c hf
    rw [if_neg (by simp [hf]), he]
    rcases hsn with rfl | rfl
    · have h4 : sigCount (l ++ [⟨3, c⟩]) 4 = sigCount l 4 := by
        simp [sigCount, List.countP_append]
      have h3 : sigCount (l ++ [⟨3, c⟩]) 3 = sigCount l 3 + 1 := by
        simp [sigCount, List.countP_append]
      rw [h4, h3, h0]
      exact ⟨hK, le_refl 1⟩
    · have h4 : sigCount (l ++ [⟨4, c⟩]) 4 = sigCount l 4 + 1 := by
        simp [sigCount, List.countP_append]
      have h3 : sigCount (l ++ [⟨4, c⟩]) 3 = sigCount l 3 := by
        simp [sigCount, List.countP_append]
      rw [h4, h3, h0]
      exact ⟨le_refl 1, hU⟩
  · rw [if_pos rfl, coalesceSig_count, coalesceSig_count]
    exact ⟨hK, hU⟩

/-- A single kill call preserves the at-most-one-pending invariant for
every thread. -/
theorem kill_PendInv (sys : Sys) (c tid : Nat) (sn : Int) (r : Int) (sys1 : Sys)
    (hInv : PendInv sys) (h : kill sys c tid sn = some (r, sys1)) : PendInv sys1 := by
  rw [kill] at h
  rcases hv : validated_tid sys tid with _ | t <;> simp only [hv] at h
  · simp only [Option.some.injEq, Prod.mk.injEq] at h
    rw [← h.2]
    exact hInv
  · have hmemt : (tid, t) ∈ sys.threads := lookupA_mem _ _ _ hv
    by_cases h2 : sn = SIG_UBLOCK
    · rw [if_pos h2] at h
      split at h
      · simp only [Option.some.injEq, Prod.mk.injEq] at h
        rw [← h.2]
        exact hInv
      · split at h <;>
          (simp only [Option.some.injEq, Prod.mk.injEq] at h; rw [← h.2])
        · exact hInv
        · intro pr hpr
          exact hInv pr hpr
    · rw [if_neg h2] at h
      by_cases h3 : sn = SIG_USR
      · rw [if_pos h3] at h
        split at h
        · simp only [Option.some.injEq, Prod.mk.injEq] at h
          rw [← h.2]
          exact hInv
        · simp only [Option.some.injEq, Prod.mk.injEq] at h
          rw [← h.2]
          intro pr hpr
          rcases mem_insertA _ _ _ _ hpr with hpr1 | hpr1
          · subst hpr1
            obtain ⟨hK, hU⟩ := hInv _ hmemt
            exact pendUpdate_counts t.pending SIG_USR c (Or.inl rfl) hK hU
          · exact hInv _ hpr1
      · rw [if_neg h3] at h
        by_cases h4 : sn = SIG_KILL
        · rw [if_pos h4] at h
          rcases hw : walkChain sys.threads c tid (sys.threads.length + 1) with _ | b <;>
            simp only [hw] at h
          · exact absurd h (by simp)
          · cases b
            · simp only [Option.some.injEq, Prod.mk.injEq] at h
              rw [← h.2]
              exact hInv
            · simp only [Option.some.injEq, Prod.mk.injEq] at h
              rw [← h.2]
              intro pr hpr
              rcases mem_insertA _ _ _ _ hpr with hpr1 | hpr1
              · subst hpr1
                obtain ⟨hK, hU⟩ := hInv _ hmemt
                exact pendUpdate_counts t.pending SIG_KILL c (Or.inr rfl) hK hU
              · exact hInv _ hpr1
        · rw [if_neg h4] at h
          simp only [Option.some.injEq, Prod.mk.injEq] at h
          rw [← h.2]
          exact hInv

/-- Any sequence of kill calls preserves the at-most-one-pending
invariant. -/
theorem runKills_PendInv : ∀ (ks : List (Nat × Nat × Int)) (sys sys1 : Sys),
    PendInv sys → runKills sys ks = some sys1 → PendInv sys1 := by
  intro ks
  induction ks with
  | nil =>
    intro sys sys1 h hr
    rw [runKills] at hr
    injection hr with hr
    rw [← hr]
    exact h
  | cons a rest ih =>
    intro sys sys1 h hr
    obtain ⟨c, tid, sn⟩ := a
    rw [runKills] at hr
    rcases hk : kill sys c tid sn with _ | ⟨r, sys2⟩ <;> simp only [hk] at hr
    · exact absurd hr (by simp)
    · exact ih _ _ (kill_PendInv sys c tid sn r sys2 h hk) hr

/-- Claim C6: starting from threads with empty pending lists, after any
sequence of kill calls (by any callers, to any targets) every thread's
pending list holds at most one KILL record and at most one USR record —
a kill that finds a matching record overwrites its sender instead of
enqueueing a second one. -/
theorem C6_at_most_one_pending (sys : Sys) (ks : List (Nat × Nat × Int)) (sys1 : Sys)
    (hemp : ∀ pr ∈ sys.threads, pr.2.pending = [])
    (hr : runKills sys ks = some sys1) :
    ∀ pr ∈ sys1.threads,
      sigCount pr.2.pending SIG_KILL ≤ 1 ∧ sigCount pr.2.pending SIG_USR ≤ 1 := by
  have hInv : PendInv sys := by
    intro pr hpr
    rw [hemp pr hpr]
    constructor <;> simp [sigCount]
  exact runKills_PendInv ks sys sys1 hInv hr

/-- Witness for C6: running two root self-KILLs and two USR sends on the
two-thread system leaves exactly one KILL and one USR record pending. -/
theorem C6_witness :
    (∀ pr ∈ sysC3.threads, pr.2.pending = [])
    ∧ runKills sysC3 ksW = some sysC6res
    ∧ (∀ pr ∈ sysC6res.threads,
        sigCount pr.2.pending SIG_KILL ≤ 1 ∧ sigCount pr.2.pending SIG_USR ≤ 1) :=
  ⟨by decide, by decide,
   C6_at_most_one_pending sysC3 ksW sysC6res (by decide) (by decide)⟩

end Pintos
